import Mathlib

/-!
Verification development for `checker/check_native_imports.py`, a tool that
tests wheel packages by installing them and importing their native modules.

The Python source is shallowly embedded: each Python function becomes a Lean
definition of the same name; subprocess invocations, the filesystem and the
wheel archive contents are abstracted as explicit inputs (oracle fields on
the input structures); Python dicts become association lists in insertion
order (key uniqueness, where a theorem needs it, is an explicit hypothesis);
Python sets become duplicate-free lists built by membership-guarded
insertion.

Python string operations are re-implemented structurally over `List Char`
so that every definition evaluates inside the kernel: `sub in s` is
`strContains s sub`; `s.strip()` is `pyStrip` (ASCII whitespace, which is
what occurs in this program's data); `s.lower()` is `pyLower` (ASCII case
folding, agreeing with Python on the ASCII data this program handles);
`s.split(c)` for a one-character separator is `pySplitChar c s`;
`s.split(sub)[0]` is `takeBeforeCL`; string comparison for `sorted` is
code-point lexicographic order `strLe`, as in Python.
-/

namespace NativeImports

/-! ## String primitives -/

/-- ASCII lower-casing of one character, as Python `str.lower` acts on
ASCII. -/
def charLower (c : Char) : Char :=
  if 'A' ≤ c && c ≤ 'Z' then Char.ofNat (c.toNat + 32) else c

/-- `isPre pre l` : `pre` is an initial segment of `l`. -/
def isPre : List Char → List Char → Bool
  | [], _ => true
  | _ :: _, [] => false
  | a :: as, b :: bs => a == b && isPre as bs

/-- `containsSubCL sub l` : `sub` occurs contiguously inside `l`
(Python `sub in s`; the empty pattern occurs in everything). -/
def containsSubCL (sub : List Char) : List Char → Bool
  | [] => sub == []
  | c :: cs => isPre sub (c :: cs) || containsSubCL sub cs

/-- Python `sub in s`. -/
def strContains (s sub : String) : Bool := containsSubCL sub.data s.data

/-- Python `s.lower()` (ASCII). -/
def pyLower (s : String) : String := ⟨s.data.map charLower⟩

/-- Python `s.startswith(pre)`. -/
def pyStartsWith (s pre : String) : Bool := isPre pre.data s.data

/-- Python `s.endswith(suf)`. -/
def pyEndsWith (s suf : String) : Bool := isPre suf.data.reverse s.data.reverse

/-- Split on a one-character separator, Python `s.split(c)`: no collapsing
of adjacent separators, always at least one (possibly empty) piece. -/
def splitCharCL (sep : Char) : List Char → List (List Char)
  | [] => [[]]
  | c :: cs =>
    match splitCharCL sep cs with
    | [] => [[c]]
    | p :: ps => if c == sep then [] :: p :: ps else (c :: p) :: ps

/-- Python `s.split(c)` for a one-character separator `c`. -/
def pySplitChar (sep : Char) (s : String) : List String :=
  (splitCharCL sep s.data).map (fun p => String.mk p)

/-- The piece of `l` before the first occurrence of `sub` (Python
`s.split(sub)[0]`; the whole list when `sub` does not occur). -/
def takeBeforeCL (sub : List Char) : List Char → List Char
  | [] => []
  | c :: cs => if isPre sub (c :: cs) then [] else c :: takeBeforeCL sub cs

/-- ASCII whitespace, as stripped by Python `str.strip()` on the ASCII
data this program handles. -/
def isSpaceChar (c : Char) : Bool :=
  c == ' ' || c == '\t' || c == '\n' || c == '\r' || c == '\x0b' || c == '\x0c'

/-- Python `s.strip()`. -/
def pyStrip (s : String) : String :=
  ⟨((s.data.dropWhile isSpaceChar).reverse.dropWhile isSpaceChar).reverse⟩

/-- Python `s.rstrip(".")`. -/
def rstripDotCL (l : List Char) : List Char :=
  (l.reverse.dropWhile (fun c => c == '.')).reverse

/-- Python `s.replace("/", ".")` (one-character pattern, so a plain map). -/
def replaceSlashDot (l : List Char) : List Char :=
  l.map (fun c => if c == '/' then '.' else c)

/-- Python `".".join(parts)`. -/
def joinDotCL : List (List Char) → List Char
  | [] => []
  | [p] => p
  | p :: q :: ps => p ++ '.' :: joinDotCL (q :: ps)

/-- Code-point lexicographic `≤` on character lists — Python's `<=` on
strings (comparing code points, with a proper head list smaller). -/
def clLe : List Char → List Char → Bool
  | [], _ => true
  | _ :: _, [] => false
  | a :: as, b :: bs => a.toNat < b.toNat || (a.toNat == b.toNat && clLe as bs)

/-- Python `a <= b` on strings (code-point lexicographic). -/
def strLe (a b : String) : Bool := clLe a.data b.data

/-- The propositional order corresponding to `strLe`; Python `sorted`
sorts ascending by this order. -/
def strLeR (a b : String) : Prop := strLe a b = true

instance : DecidableRel strLeR := fun a b => by
  unfold strLeR
  infer_instance

/-- Insertion sort by `strLe` — the model of Python `sorted` on strings. -/
def sortStrs (l : List String) : List String := List.insertionSort strLeR l

/-- Duplicate removal keeping first occurrences (`seen` accumulates what
was already emitted) — together with `sortStrs` this models
`sorted(set(l))`, whose value only depends on the set of elements. -/
def dedupGo : List String → List String → List String
  | _, [] => []
  | seen, s :: rest =>
    if s ∈ seen then dedupGo seen rest else s :: dedupGo (s :: seen) rest

/-- Duplicate removal keeping first occurrences. -/
def dedupStrs (l : List String) : List String := dedupGo [] l

/-! ## Whitelist model and matcher -/

/-- A Python value stored as a whitelist error pattern: either a string or
some non-string value (whose precise shape never matters to the code). -/
inductive PyVal where
  | str (s : String)
  | other
  deriving DecidableEq, Repr

/-- The loaded whitelist: `Dict[str, Dict[str, PyVal]]` as an association
list in insertion order. -/
abbrev Whitelist := List (String × List (String × PyVal))

/-- `d.get(k)` on an association list modelling a Python dict. -/
def dictGet {α : Type} (d : List (String × α)) (k : String) : Option α :=
  (d.find? (fun p => p.1 == k)).map (fun p => p.2)

/-- `whitelist.get(wheel_name, {}).get(module)` — the two-level lookup. -/
def wlLookup (whitelist : Whitelist) (wheel_name module : String) : Option PyVal :=
  match dictGet whitelist wheel_name with
  | none => none
  | some mods => dictGet mods module

/-- Embedding of `is_whitelisted(wheel_name, module, error, whitelist)`.
The Python guard `not expected_error or not isinstance(expected_error, str)`
rejects a missing pattern, any non-string pattern, and the empty-string
pattern (which is falsy). -/
def is_whitelisted (wheel_name module error : String)
    (whitelist : Whitelist) : Bool :=
  if wheel_name == "" || module == "" || error == "" then false
  else
    match wlLookup whitelist wheel_name module with
    | some (PyVal.str p) =>
        if p == "" then false
        else strContains (pyLower error) (pyLower p)
    | some PyVal.other => false
    | none => false

/-- The matcher exactly as the sentence behind claim C1 words it: true iff
a string pattern is present at `whitelist[packageName][module]` and the
lowercased pattern is a substring of the lowercased error text, with empty
package name, module name, or error text forced to false. (Used only to
compare the claim's words against the code.) -/
def claimC1Whitelisted (wheel_name module error : String)
    (whitelist : Whitelist) : Bool :=
  match wlLookup whitelist wheel_name module with
  | some (PyVal.str p) =>
      wheel_name != "" && module != "" && error != "" &&
        strContains (pyLower error) (pyLower p)
  | some PyVal.other => false
  | none => false

/-! ## Module classifier (`extract_native_modules`) -/

/-- The recognized compiled-extension suffixes of this source variant. -/
def native_extensions : List String := [".so", ".pyd"]

/-- Parse `top_level.txt`: strip, split lines, strip each, drop blanks. -/
def parseTopLevel (content : String) : List String :=
  ((pySplitChar '\n' (pyStrip content)).map pyStrip).filter (fun m => m != "")

/-- First loop of `extract_native_modules`: the first entry whose name ends
with the `top_level.txt` marker is read and parsed (then the loop breaks). -/
def topLevelOf (entries : List (String × String)) : List String :=
  match entries.find? (fun e => pyEndsWith e.1 ".dist-info/top_level.txt") with
  | some e => parseTopLevel e.2
  | none => []

/-- `name.split("/")[-1]`. -/
def entryBaseName (name : String) : String :=
  (pySplitChar '/' name).getLastD name

/-- Entries inside metadata / data / bundled-library directories. -/
def isSkippedDir (name : String) : Bool :=
  strContains name ".dist-info/" || strContains name ".data/" ||
    strContains name ".libs/"

/-- Entry name carries a recognized compiled-extension suffix. -/
def hasNativeExt (name : String) : Bool :=
  native_extensions.any (fun ext => pyEndsWith name ext)

/-- The bundled-shared-library test: base filename starting with `lib` and
containing a `.so.` segment. -/
def isBundledLib (name : String) : Bool :=
  pyStartsWith (entryBaseName name) "lib" &&
    strContains (entryBaseName name) ".so."

/-- For the first recognized extension occurring in the path, keep the part
before its first occurrence (`module_path.split(ext)[0]`, then `break`). -/
def stripExtension (module_path : String) : String :=
  match native_extensions.find? (fun ext => strContains module_path ext) with
  | some ext => ⟨takeBeforeCL ext.data module_path.data⟩
  | none => module_path

/-- A dot-separated part that begins an interpreter/ABI tag. -/
def abiTagStartCL (part : List Char) : Bool :=
  isPre "cpython-".data part || isPre "abi3".data part ||
    isPre "pypy".data part || isPre "cp3".data part

/-- Second-loop body of `extract_native_modules` after the filters: strip
the extension, truncate at the first ABI-tag part, re-join with dots, turn
path separators into dots, strip trailing dots; empty result means the
entry contributes no module. -/
def moduleNameOfEntry (name : String) : Option String :=
  let mp := stripExtension name
  let clean_parts := (splitCharCL '.' mp.data).takeWhile (fun part => !abiTagStartCL part)
  let module_name := rstripDotCL (replaceSlashDot (joinDotCL clean_parts))
  if module_name == [] then none else some ⟨module_name⟩

/-- One iteration of the classification loop over an entry name; the state
is (modules collected so far, `has_native_files`). -/
def classifyStep (acc : List String × Bool) (name : String) : List String × Bool :=
  if isSkippedDir name then acc
  else if !hasNativeExt name then acc
  else if isBundledLib name then (acc.1, true)
  else
    match moduleNameOfEntry name with
    | some m => (acc.1 ++ [m], true)
    | none => (acc.1, true)

/-- The classification loop over all entry names. -/
def rawClassify (names : List String) : List String × Bool :=
  names.foldl classifyStep ([], false)

/-- The module names one entry contributes to the classification loop
(zero or one). -/
def entryContribution (name : String) : List String :=
  if isSkippedDir name then []
  else if !hasNativeExt name then []
  else if isBundledLib name then []
  else (moduleNameOfEntry name).toList

/-- Whether one entry sets `has_native_files`. -/
def entryFlag (name : String) : Bool :=
  !isSkippedDir name && hasNativeExt name

/-- Whether `extract_native_modules` takes the top-level-names fallback
branch: `not modules and has_native_files and top_level_packages`. -/
def usesTopLevelFallback (entries : List (String × String)) : Bool :=
  (rawClassify (entries.map Prod.fst)).1.isEmpty &&
    (rawClassify (entries.map Prod.fst)).2 &&
    !(topLevelOf entries).isEmpty

/-- Embedding of `extract_native_modules(wheel_path)`; the archive is its
listing, a list of (entry name, entry bytes as text). Returns
(native modules, top-level packages). -/
def extract_native_modules (entries : List (String × String)) :
    List String × List String :=
  if usesTopLevelFallback entries then
    (topLevelOf entries, topLevelOf entries)
  else
    (sortStrs (dedupStrs (rawClassify (entries.map Prod.fst)).1),
      topLevelOf entries)

/-! ## Whitelist loading -/

/-- The parsed JSON shapes the loader distinguishes: strings, objects, and
everything else. -/
inductive Json where
  | jstr (s : String)
  | jobj (fields : List (String × Json))
  | jother
  deriving Repr

/-- The state of the whitelist file when a path was given. -/
inductive WhitelistFile where
  | absent
  | unreadable
  | malformed
  | parsed (j : Json)

/-- Validate one wheel's module table: every value must be a string. -/
def validateModules : List (String × Json) → Option (List (String × PyVal))
  | [] => some []
  | (m, Json.jstr s) :: rest =>
    (validateModules rest).map (fun r => (m, PyVal.str s) :: r)
  | _ :: _ => none

/-- Validate the top level: every value must be an object of strings. -/
def validateWhitelist : List (String × Json) → Option Whitelist
  | [] => some []
  | (w, Json.jobj mods) :: rest =>
    match validateModules mods with
    | none => none
    | some inner => (validateWhitelist rest).map (fun r => (w, inner) :: r)
  | _ :: _ => none

/-- Embedding of `load_whitelist(whitelist_path)`. `none` means no path
argument was given; `Except.error ()` is `sys.exit(1)`. -/
def load_whitelist : Option WhitelistFile → Except Unit Whitelist
  | none => Except.ok []
  | some WhitelistFile.absent => Except.ok []
  | some WhitelistFile.unreadable => Except.error ()
  | some WhitelistFile.malformed => Except.error ()
  | some (WhitelistFile.parsed (Json.jobj fields)) =>
    match validateWhitelist fields with
    | some wl => Except.ok wl
    | none => Except.error ()
  | some (WhitelistFile.parsed _) => Except.error ()

/-! ## Package verifier (`test_wheel_with_logging`) -/

/-- Outcome of one `subprocess.run` call with a timeout. -/
inductive ProcOutcome where
  | timedOut
  | done (returncode : Int) (stdout stderr : String)

/-- Everything one call of `test_wheel_with_logging` observes about the
outside world, as oracle inputs. -/
structure WheelInput where
  wheelName : String
  venvRun : ProcOutcome
  venvPythonPath : String
  venvPythonExists : Bool
  installRun : ProcOutcome
  entries : List (String × String)
  probeRun : String → ProcOutcome
  raisesException : Option String

/-- The finished `PackageTestResult` (logs and timestamps are omitted:
no claim concerns them). -/
structure TestResult where
  success : Bool
  errors : List (String × String)
  whitelisted : List (String × String)
  testedCount : Nat
  usedWhitelistLocal : List (String × String)
  deriving DecidableEq, Repr

/-- `next((line for line in reversed(error_lines) if line.strip()), error_msg)`. -/
def lastNonBlankLine (error_msg : String) : String :=
  ((pySplitChar '\n' error_msg).reverse.find? (fun line => pyStrip line != "")).getD
    error_msg

/-- Python `set.add`: membership-guarded insertion. -/
def setAdd (s : List (String × String)) (x : String × String) :
    List (String × String) :=
  if x ∈ s then s else s ++ [x]

/-- Mutable state of the per-module probe loop. -/
structure ProbeState where
  failed : List (String × String)
  whitelisted : List (String × String)
  tested : Nat
  used : List (String × String)
  deriving DecidableEq, Repr

/-- Classify a failing probe's error against the whitelist and record it. -/
def recordOutcome (wheel_name : String) (whitelist : Whitelist)
    (module actual_error : String) (st : ProbeState) : ProbeState :=
  if is_whitelisted wheel_name module actual_error whitelist then
    { st with whitelisted := st.whitelisted ++ [(module, actual_error)],
              used := setAdd st.used (wheel_name, module) }
  else
    { st with failed := st.failed ++ [(module, actual_error)] }

/-- One iteration of the probe loop for one module name. -/
def probeStep (wheel_name : String) (whitelist : Whitelist)
    (probeRun : String → ProcOutcome) (st : ProbeState) (module : String) :
    ProbeState :=
  match probeRun module with
  | ProcOutcome.timedOut =>
    recordOutcome wheel_name whitelist module
      "Import timeout (module may be hanging)" { st with tested := st.tested + 1 }
  | ProcOutcome.done rc _ stderr =>
    if rc == 0 then { st with tested := st.tested + 1 }
    else
      let error_msg := pyStrip stderr
      let actual_error :=
        if error_msg != "" then lastNonBlankLine error_msg else "Unknown error"
      if strContains error_msg "dynamic module does not define module export function" ||
          strContains error_msg "ModuleNotFoundError" then st
      else
        recordOutcome wheel_name whitelist module actual_error
          { st with tested := st.tested + 1 }

/-- Finalization of the probe loop: `finish(False, failed, whitelisted)`
when any import failed, else `finish(True, [], whitelisted)` (when
`whitelisted_imports` is empty this coincides with `finish(True, [], [])`,
as in the source's three-way branch). -/
def probeFinish (st : ProbeState) : TestResult :=
  if st.failed != [] then
    ⟨false, st.failed, st.whitelisted, st.tested, st.used⟩
  else ⟨true, [], st.whitelisted, st.tested, st.used⟩

/-- The tail of `test_wheel_with_logging` after a successful install:
classify the native modules and probe each one. -/
def probePhase (inp : WheelInput) (whitelist : Whitelist) : TestResult :=
  if (extract_native_modules inp.entries).1.isEmpty then ⟨true, [], [], 0, []⟩
  else
    probeFinish ((extract_native_modules inp.entries).1.foldl
      (probeStep inp.wheelName whitelist inp.probeRun) ⟨[], [], 0, []⟩)

/-- Embedding of `test_wheel_with_logging`. -/
def test_wheel_with_logging (inp : WheelInput) (whitelist : Whitelist) :
    TestResult :=
  match inp.venvRun with
  | ProcOutcome.timedOut =>
    ⟨false, [("venv", "Timeout creating virtual environment")], [], 0, []⟩
  | ProcOutcome.done rc _ stderr =>
    if rc != 0 then
      ⟨false,
        [("venv",
          if stderr != "" then pyStrip stderr
          else "Failed to create virtual environment")], [], 0, []⟩
    else if !inp.venvPythonExists then
      ⟨false,
        [("venv", "Python executable not found at " ++ inp.venvPythonPath)],
        [], 0, []⟩
    else
      match inp.installRun with
      | ProcOutcome.timedOut =>
        ⟨false, [("install", "Timeout installing wheel")], [], 0, []⟩
      | ProcOutcome.done rc2 stdout2 stderr2 =>
        if rc2 != 0 then
          let error_msg := if stderr2 != "" then pyStrip stderr2 else pyStrip stdout2
          ⟨false,
            [("install", if error_msg != "" then error_msg else "Failed to install wheel")],
            [], 0, []⟩
        else probePhase inp whitelist

/-- Embedding of `test_wheel_wrapper`: an exception raised by the body is
caught at the task boundary and converted to a failure outcome. -/
def test_wheel_wrapper (inp : WheelInput) (whitelist : Whitelist) : TestResult :=
  match inp.raisesException with
  | some e => ⟨false, [("exception", e)], [], 0, []⟩
  | none => test_wheel_with_logging inp whitelist

/-- Read off the probe-loop body: the probe of module `m` exits non-zero
with error output indicating a missing module-export entry point or a
module-not-found condition, so the loop silently skips it. -/
def probeSilentlySkipped (probeRun : String → ProcOutcome) (module : String) : Bool :=
  match probeRun module with
  | ProcOutcome.timedOut => false
  | ProcOutcome.done rc _ stderr =>
    rc != 0 &&
    (strContains (pyStrip stderr) "dynamic module does not define module export function" ||
      strContains (pyStrip stderr) "ModuleNotFoundError")

/-- Read off the probe-loop body: the probe of module `m` yields a recorded
failure that the whitelist suppresses — a timeout, or a non-zero exit that
is not silently skipped, whose extracted error text is whitelisted. Used
to phrase hypotheses about whole runs. -/
def probeWhitelistedFailure (wheel_name : String) (whitelist : Whitelist)
    (probeRun : String → ProcOutcome) (module : String) : Bool :=
  match probeRun module with
  | ProcOutcome.timedOut =>
    is_whitelisted wheel_name module "Import timeout (module may be hanging)"
      whitelist
  | ProcOutcome.done rc _ stderr =>
    rc != 0 &&
    !(strContains (pyStrip stderr) "dynamic module does not define module export function" ||
      strContains (pyStrip stderr) "ModuleNotFoundError") &&
    is_whitelisted wheel_name module
      (if pyStrip stderr != "" then lastNonBlankLine (pyStrip stderr)
       else "Unknown error")
      whitelist

/-! ## Run coordinator (`main`) -/

/-- Embedding of `find_unused_whitelist_entries`. -/
def find_unused_whitelist_entries : Whitelist → List (String × String) →
    List (String × List String)
  | [], _ => []
  | (wheel_name, modules) :: rest, used =>
    if ((modules.map Prod.fst).filter
        (fun m => decide ((wheel_name, m) ∉ used))).isEmpty then
      find_unused_whitelist_entries rest used
    else
      (wheel_name, (modules.map Prod.fst).filter
        (fun m => decide ((wheel_name, m) ∉ used))) ::
        find_unused_whitelist_entries rest used

/-- One result per wheel, in discovery order (completion order does not
affect any aggregate below, all of which are keyed by wheel name). -/
def runResults (wheels : List WheelInput) (whitelist : Whitelist) :
    List (String × TestResult) :=
  wheels.map (fun w => (w.wheelName, test_wheel_wrapper w whitelist))

/-- `used_whitelist.update(result.used_whitelist_local)` over all results. -/
def accumUsed (results : List (String × TestResult)) : List (String × String) :=
  results.foldl (fun acc r => r.2.usedWhitelistLocal.foldl setAdd acc) []

/-- `failed_wheels`: one entry per unsuccessful result. -/
def failedWheelsOf (results : List (String × TestResult)) :
    List (String × List (String × String)) :=
  results.filterMap (fun r => if r.2.success then none else some (r.1, r.2.errors))

/-- `whitelisted_wheels`: one entry per result with whitelisted imports. -/
def whitelistedWheelsOf (results : List (String × TestResult)) :
    List (String × List (String × String)) :=
  results.filterMap
    (fun r => if r.2.whitelisted != [] then some (r.1, r.2.whitelisted) else none)

/-- Everything `main` observes about the outside world. -/
structure MainInput where
  whitelistFile : Option WhitelistFile
  packagesDirFound : Bool
  wheels : List WheelInput

/-- What a run of `main` produces: an early `sys.exit(1)` during setup, or
a final report with the exit code from `sys.exit(1 if failed_wheels else 0)`. -/
inductive MainOutcome where
  | setupFailure
  | report (exitCode : Nat)
      (failedWheels whitelistedWheels : List (String × List (String × String)))
      (unused : List (String × List String))
  deriving DecidableEq, Repr

/-- Embedding of `main` (progress printing and worker-pool scheduling are
omitted; the aggregates are order-independent, see §5 of the spec). -/
def mainRun (inp : MainInput) : MainOutcome :=
  match load_whitelist inp.whitelistFile with
  | Except.error _ => MainOutcome.setupFailure
  | Except.ok whitelist =>
    if !inp.packagesDirFound then MainOutcome.setupFailure
    else if inp.wheels.isEmpty then MainOutcome.setupFailure
    else
      let results := runResults inp.wheels whitelist
      let failed_wheels := failedWheelsOf results
      let unused := find_unused_whitelist_entries whitelist (accumUsed results)
      MainOutcome.report (if failed_wheels != [] then 1 else 0) failed_wheels
        (whitelistedWheelsOf results) unused

/-- The process exit code of a run. -/
def exitCodeOf : MainOutcome → Nat
  | MainOutcome.setupFailure => 1
  | MainOutcome.report c _ _ _ => c

/-- Flatten the reported unused table into (wheel, module) pairs. -/
def unusedPairs (unused : List (String × List String)) : List (String × String) :=
  unused.foldr (fun p acc => p.2.map (fun m => (p.1, m)) ++ acc) []

/-! ## Helper lemmas -/

/-- The empty pattern occurs in every string. -/
theorem containsSubCL_nil (l : List Char) : containsSubCL [] l = true := by
  cases l <;> simp [containsSubCL, isPre]

/-! ## Claim C1 -/

/-- C1, counterexample: the claim's iff fails on an empty stored pattern.
With whitelist `{"a.whl": {"m": ""}}` and error text `"boom"`, the
whitelist does contain a string pattern at `whitelist["a.whl"]["m"]` whose
lowercasing is a substring of the lowercased error text, and package name,
module name and error text are all non-empty — yet `is_whitelisted`
returns false, because the Python guard `not expected_error` also rejects
the empty string. -/
theorem C1_counterexample :
    is_whitelisted "a.whl" "m" "boom" [("a.whl", [("m", PyVal.str "")])] = false ∧
    claimC1Whitelisted "a.whl" "m" "boom" [("a.whl", [("m", PyVal.str "")])] = true := by
  decide

/-- C1, amended: `is_whitelisted` returns true iff the whitelist contains
a **non-empty** string pattern at `whitelist[packageName][module]` whose
lowercasing is a substring of the lowercased error text, and the package
name, module name and error text are all non-empty; absence of either key,
a non-string pattern, an empty pattern, or an empty query value yields
false (fail closed). -/
theorem C1_is_whitelisted_characterization (wheel_name module error : String)
    (whitelist : Whitelist) :
    is_whitelisted wheel_name module error whitelist = true ↔
      (wheel_name ≠ "" ∧ module ≠ "" ∧ error ≠ "" ∧
        ∃ p, wlLookup whitelist wheel_name module = some (PyVal.str p) ∧ p ≠ "" ∧
          strContains (pyLower error) (pyLower p) = true) := by
  unfold is_whitelisted
  split_ifs with h
  · simp only [Bool.or_eq_true, beq_iff_eq] at h
    simp only [false_iff]
    rintro ⟨hw, hm, he, -⟩
    rcases h with (h | h) | h
    · exact hw h
    · exact hm h
    · exact he h
  · simp only [Bool.or_eq_true, beq_iff_eq, not_or] at h
    obtain ⟨⟨hw, hm⟩, he⟩ := h
    rcases hlk : wlLookup whitelist wheel_name module with _ | pv
    · simp only [hlk, Bool.false_eq_true, false_iff]
      rintro ⟨-, -, -, p, hp, -⟩
      cases hp
    · cases pv with
      | str p =>
        simp only [hlk]
        by_cases hp : p = ""
        · subst hp
          simp only [beq_self_eq_true, if_true, Bool.false_eq_true, false_iff]
          rintro ⟨-, -, -, q, hq, hq0, -⟩
          cases hq
          exact hq0 rfl
        · have hpb : (p == "") = false := by simpa using hp
          simp only [hpb, Bool.false_eq_true, if_false]
          constructor
          · intro hc
            exact ⟨hw, hm, he, p, rfl, hp, hc⟩
          · rintro ⟨-, -, -, q, hq, -, hc⟩
            cases hq
            exact hc
      | other =>
        simp only [hlk, Bool.false_eq_true, false_iff]
        rintro ⟨-, -, -, q, hq, -, -⟩
        cases hq

/-! ## Claim C2 -/

/-- A whitelisted-and-recorded failing probe leaves `failed` unchanged and
appends exactly one entry to `whitelisted`. -/
theorem probeStep_of_whitelistedFailure (wheel_name : String) (whitelist : Whitelist)
    (probeRun : String → ProcOutcome) (st : ProbeState) (m : String)
    (h : probeWhitelistedFailure wheel_name whitelist probeRun m = true) :
    (probeStep wheel_name whitelist probeRun st m).failed = st.failed ∧
      (probeStep wheel_name whitelist probeRun st m).whitelisted.length =
        st.whitelisted.length + 1 := by
  unfold probeWhitelistedFailure at h
  unfold probeStep
  rcases hp : probeRun m with _ | ⟨rc, out, err⟩ <;> rw [hp] at h <;> simp only [] at h
  · simp [recordOutcome, h]
  · simp only [Bool.and_eq_true, bne_iff_ne, ne_eq, Bool.not_eq_true'] at h
    obtain ⟨⟨hrc, hskip⟩, hwl⟩ := h
    rw [ite_not] at hwl
    have hrcb : (rc == 0) = false := by simpa using hrc
    simp [hrcb, hskip, recordOutcome, hwl]

/-- Over a list of modules that all have whitelisted recorded failures, the
probe loop adds nothing to `failed` and one `whitelisted` entry per
module. -/
theorem foldl_probeStep_all_whitelisted (wheel_name : String)
    (whitelist : Whitelist) (probeRun : String → ProcOutcome) :
    ∀ (l : List String) (st : ProbeState),
      (∀ m ∈ l, probeWhitelistedFailure wheel_name whitelist probeRun m = true) →
      ((l.foldl (probeStep wheel_name whitelist probeRun) st).failed = st.failed ∧
        (l.foldl (probeStep wheel_name whitelist probeRun) st).whitelisted.length =
          st.whitelisted.length + l.length)
  | [], st, _ => by simp
  | m :: ms, st, h => by
    simp only [List.foldl_cons, List.length_cons]
    obtain ⟨hf, hw1⟩ := probeStep_of_whitelistedFailure wheel_name whitelist
      probeRun st m (h m (by simp))
    obtain ⟨ih1, ih2⟩ := foldl_probeStep_all_whitelisted wheel_name whitelist
      probeRun ms (probeStep wheel_name whitelist probeRun st m)
      (fun x hx => h x (by simp [hx]))
    exact ⟨by rw [ih1, hf], by rw [ih2, hw1]; omega⟩

/-- The finalization satisfies: success iff no failed imports. -/
theorem probeFinish_success_iff (st : ProbeState) :
    (probeFinish st).success = true ↔ (probeFinish st).errors = [] := by
  unfold probeFinish
  by_cases h : st.failed = [] <;> simp [h]

/-- The probe phase satisfies: success iff no failed imports. -/
theorem probePhase_success_iff (inp : WheelInput) (whitelist : Whitelist) :
    (probePhase inp whitelist).success = true ↔
      (probePhase inp whitelist).errors = [] := by
  unfold probePhase
  by_cases h : (extract_native_modules inp.entries).1.isEmpty
  · simp [h]
  · simp only [h, Bool.false_eq_true, if_false]
    exact probeFinish_success_iff _

/-- `test_wheel_with_logging` satisfies: success iff no failed imports. -/
theorem success_iff_errors_nil (inp : WheelInput) (whitelist : Whitelist) :
    (test_wheel_with_logging inp whitelist).success = true ↔
      (test_wheel_with_logging inp whitelist).errors = [] := by
  unfold test_wheel_with_logging
  rcases inp.venvRun with _ | ⟨rc, out, err⟩
  · simp
  · by_cases hrc : rc = 0
    · simp only [hrc, bne_self_eq_false, Bool.false_eq_true, if_false]
      cases hex : inp.venvPythonExists
      · simp
      · simp only [Bool.not_true, Bool.false_eq_true, if_false]
        rcases inp.installRun with _ | ⟨rc2, out2, err2⟩
        · simp
        · by_cases hrc2 : rc2 = 0
          · simp only [hrc2, bne_self_eq_false, Bool.false_eq_true, if_false]
            exact probePhase_success_iff inp whitelist
          · simp [hrc2]
    · simp [hrc]

/-- The wrapper result also satisfies: success iff no failed imports. -/
theorem wrapper_success_iff_errors_nil (inp : WheelInput) (whitelist : Whitelist) :
    (test_wheel_wrapper inp whitelist).success = true ↔
      (test_wheel_wrapper inp whitelist).errors = [] := by
  unfold test_wheel_wrapper
  rcases inp.raisesException with _ | e
  · exact success_iff_errors_nil inp whitelist
  · simp

/-- C2: the outcome's success flag is true iff its failed-imports list is
empty; and a package that installs fine and whose native-module probes all
fail with whitelisted (and recorded) errors finishes with success = true,
a non-empty whitelisted list, and an empty failed list. -/
theorem C2_success_iff_failed_empty (inp : WheelInput) (whitelist : Whitelist) :
    ((test_wheel_with_logging inp whitelist).success = true ↔
      (test_wheel_with_logging inp whitelist).errors = []) ∧
    (∀ rc out err rc2 out2 err2,
      inp.venvRun = ProcOutcome.done rc out err → rc = 0 →
      inp.venvPythonExists = true →
      inp.installRun = ProcOutcome.done rc2 out2 err2 → rc2 = 0 →
      (extract_native_modules inp.entries).1 ≠ [] →
      (∀ m ∈ (extract_native_modules inp.entries).1,
        probeWhitelistedFailure inp.wheelName whitelist inp.probeRun m = true) →
      (test_wheel_with_logging inp whitelist).success = true ∧
        (test_wheel_with_logging inp whitelist).whitelisted ≠ [] ∧
        (test_wheel_with_logging inp whitelist).errors = []) := by
  refine ⟨success_iff_errors_nil inp whitelist, ?_⟩
  intro rc out err rc2 out2 err2 hv hrc hex hi hrc2 hmods hall
  have hred : test_wheel_with_logging inp whitelist = probePhase inp whitelist := by
    unfold test_wheel_with_logging
    rw [hv, hi]
    subst hrc hrc2
    simp [hex]
  rw [hred]
  obtain ⟨hf, hl⟩ := foldl_probeStep_all_whitelisted inp.wheelName whitelist
    inp.probeRun (extract_native_modules inp.entries).1 ⟨[], [], 0, []⟩ hall
  simp only at hf hl
  have hne : ((extract_native_modules inp.entries).1.isEmpty) = false := by
    simpa [List.isEmpty_iff] using hmods
  unfold probePhase probeFinish
  rw [hne]
  simp only [Bool.false_eq_true, if_false]
  rw [hf]
  simp only [bne_self_eq_false, Bool.false_eq_true, if_false]
  refine ⟨by trivial, ?_, by trivial⟩
  intro hwnil
  rw [hwnil] at hl
  rcases List.exists_cons_of_ne_nil hmods with ⟨a, as, hcons⟩
  rw [hcons] at hl
  simp at hl

/-- C2, witness: one wheel with one native module whose probe fails with a
whitelisted undefined-symbol error. -/
theorem C2_success_iff_failed_empty_witness :
    (test_wheel_with_logging
        { wheelName := "w.whl",
          venvRun := ProcOutcome.done 0 "" "",
          venvPythonPath := "/venv/bin/python",
          venvPythonExists := true,
          installRun := ProcOutcome.done 0 "" "",
          entries := [("pkg/_native.cpython-311-x86_64-linux-gnu.so", "")],
          probeRun := fun _ =>
            ProcOutcome.done 1 "" "Traceback\nImportError: undefined symbol: xyz",
          raisesException := none }
        [("w.whl", [("pkg._native", PyVal.str "undefined symbol")])]).success = true ∧
    (test_wheel_with_logging
        { wheelName := "w.whl",
          venvRun := ProcOutcome.done 0 "" "",
          venvPythonPath := "/venv/bin/python",
          venvPythonExists := true,
          installRun := ProcOutcome.done 0 "" "",
          entries := [("pkg/_native.cpython-311-x86_64-linux-gnu.so", "")],
          probeRun := fun _ =>
            ProcOutcome.done 1 "" "Traceback\nImportError: undefined symbol: xyz",
          raisesException := none }
        [("w.whl", [("pkg._native", PyVal.str "undefined symbol")])]).whitelisted ≠ [] ∧
    (test_wheel_with_logging
        { wheelName := "w.whl",
          venvRun := ProcOutcome.done 0 "" "",
          venvPythonPath := "/venv/bin/python",
          venvPythonExists := true,
          installRun := ProcOutcome.done 0 "" "",
          entries := [("pkg/_native.cpython-311-x86_64-linux-gnu.so", "")],
          probeRun := fun _ =>
            ProcOutcome.done 1 "" "Traceback\nImportError: undefined symbol: xyz",
          raisesException := none }
        [("w.whl", [("pkg._native", PyVal.str "undefined symbol")])]).errors = [] :=
  (C2_success_iff_failed_empty _ _).2 0 "" "" 0 "" "" rfl rfl rfl rfl rfl
    (by decide) (by decide)

/-! ## Claim C3 -/

/-- `failed_wheels` ends empty iff every wheel's result carries no
non-whitelisted failure. -/
theorem failedWheels_nil_iff (wheels : List WheelInput) (whitelist : Whitelist) :
    failedWheelsOf (runResults wheels whitelist) = [] ↔
      ∀ w ∈ wheels, (test_wheel_wrapper w whitelist).errors = [] := by
  unfold failedWheelsOf runResults
  rw [List.filterMap_eq_nil_iff]
  constructor
  · intro h w hw
    have hr := h (w.wheelName, test_wheel_wrapper w whitelist)
      (List.mem_map_of_mem _ hw)
    by_cases hs : (test_wheel_wrapper w whitelist).success = true
    · exact (wrapper_success_iff_errors_nil w whitelist).mp hs
    · simp only [hs] at hr
      simp at hr
  · intro h p hp
    obtain ⟨w, hw, rfl⟩ := List.mem_map.mp hp
    have hs := (wrapper_success_iff_errors_nil w whitelist).mpr (h w hw)
    simp [hs]

/-- C3: the exit code is 0 iff setup succeeded and no package ended with a
non-whitelisted failure; any setup failure (whitelist malformed, packages
directory missing, no package files) exits 1; and the exit code is always
0 or 1. -/
theorem C3_exit_code (inp : MainInput) :
    (exitCodeOf (mainRun inp) = 0 ↔
      (∃ whitelist, load_whitelist inp.whitelistFile = Except.ok whitelist ∧
        inp.packagesDirFound = true ∧ inp.wheels ≠ [] ∧
        ∀ w ∈ inp.wheels, (test_wheel_wrapper w whitelist).errors = [])) ∧
    ((load_whitelist inp.whitelistFile = Except.error () ∨
        inp.packagesDirFound = false ∨ inp.wheels = []) →
      exitCodeOf (mainRun inp) = 1) ∧
    (exitCodeOf (mainRun inp) = 0 ∨ exitCodeOf (mainRun inp) = 1) := by
  rcases hl : load_whitelist inp.whitelistFile with e | whitelist
  · have hexit : exitCodeOf (mainRun inp) = 1 := by
      unfold mainRun
      rw [hl]
      rfl
    rw [hexit]
    refine ⟨?_, fun _ => rfl, Or.inr rfl⟩
    constructor
    · intro h
      exact absurd h one_ne_zero
    · rintro ⟨wl, hwl, -⟩
      exact Except.noConfusion hwl
  · by_cases hdt : inp.packagesDirFound = true
    · by_cases hwe : inp.wheels = []
      · have hexit : exitCodeOf (mainRun inp) = 1 := by
          unfold mainRun
          rw [hl]
          simp [hdt, hwe, exitCodeOf]
        rw [hexit]
        refine ⟨?_, fun _ => rfl, Or.inr rfl⟩
        constructor
        · intro h
          exact absurd h one_ne_zero
        · rintro ⟨wl, -, -, hne, -⟩
          exact (hne hwe).elim
      · by_cases hf : failedWheelsOf (runResults inp.wheels whitelist) = []
        · have hexit : exitCodeOf (mainRun inp) = 0 := by
            unfold mainRun
            rw [hl]
            simp [hdt, hwe, hf, List.isEmpty_iff, exitCodeOf]
          rw [hexit]
          refine ⟨⟨fun _ => ⟨whitelist, rfl, hdt, hwe,
            (failedWheels_nil_iff inp.wheels whitelist).mp hf⟩, fun _ => rfl⟩, ?_, Or.inl rfl⟩
          rintro (hbad | hbad | hbad)
          · exact Except.noConfusion hbad
          · rw [hdt] at hbad
            exact Bool.noConfusion hbad
          · exact absurd hbad hwe
        · have hexit : exitCodeOf (mainRun inp) = 1 := by
            unfold mainRun
            rw [hl]
            simp [hdt, hwe, hf, List.isEmpty_iff, exitCodeOf]
          rw [hexit]
          refine ⟨?_, fun _ => rfl, Or.inr rfl⟩
          constructor
          · intro h
            exact absurd h one_ne_zero
          · rintro ⟨wl, hwl, -, -, hall⟩
            have hww : wl = whitelist := by
              injection hwl with h
              exact h.symm
            rw [hww] at hall
            exact (hf ((failedWheels_nil_iff inp.wheels whitelist).mpr hall)).elim
    · have hdf : inp.packagesDirFound = false := by
        simpa using hdt
      have hexit : exitCodeOf (mainRun inp) = 1 := by
        unfold mainRun
        rw [hl]
        simp [hdf, exitCodeOf]
      rw [hexit]
      refine ⟨?_, fun _ => rfl, Or.inr rfl⟩
      constructor
      · intro h
        exact absurd h one_ne_zero
      · rintro ⟨wl, -, hdir, -⟩
        rw [hdf] at hdir
        exact Bool.noConfusion hdir


/-- C3, witness: a missing packages directory exits 1. -/
theorem C3_exit_code_witness :
    exitCodeOf (mainRun { whitelistFile := none,
                          packagesDirFound := false,
                          wheels := [] }) = 1 :=
  (C3_exit_code { whitelistFile := none,
                  packagesDirFound := false,
                  wheels := [] }).2.1 (Or.inr (Or.inl rfl))

/-! ## Claims C4 and C5: classifier lemmas -/

/-- `clLe` is total. -/
theorem clLe_total : ∀ as bs : List Char, clLe as bs = true ∨ clLe bs as = true
  | [], _ => Or.inl rfl
  | _ :: _, [] => Or.inr rfl
  | a :: as, b :: bs => by
    unfold clLe
    by_cases h1 : a.toNat < b.toNat
    · left
      simp [h1]
    · by_cases h2 : b.toNat < a.toNat
      · right
        simp [h2]
      · have he : a.toNat = b.toNat := by omega
        rcases clLe_total as bs with h | h
        · left
          simp [he, h]
        · right
          simp [he.symm, h]

/-- `clLe` is transitive. -/
theorem clLe_trans : ∀ as bs cs : List Char, clLe as bs = true → clLe bs cs = true →
    clLe as cs = true
  | [], _, _, _, _ => rfl
  | _ :: _, [], _, h1, _ => by cases h1
  | _ :: _, _ :: _, [], _, h2 => by cases h2
  | a :: as, b :: bs, c :: cs, h1, h2 => by
    unfold clLe at h1 h2 ⊢
    simp only [Bool.or_eq_true, Bool.and_eq_true, beq_iff_eq, decide_eq_true_eq] at h1 h2 ⊢
    rcases h1 with h1 | ⟨he1, hr1⟩
    · rcases h2 with h2 | ⟨he2, hr2⟩
      · left; omega
      · left; omega
    · rcases h2 with h2 | ⟨he2, hr2⟩
      · left; omega
      · right
        exact ⟨by omega, clLe_trans as bs cs hr1 hr2⟩

/-- `sortStrs` sorts by the Python string order. -/
theorem sortStrs_sorted (l : List String) : List.Sorted strLeR (sortStrs l) :=
  @List.sorted_insertionSort String strLeR _
    ⟨fun a b => clLe_total a.data b.data⟩
    ⟨fun a b c => clLe_trans a.data b.data c.data⟩ l

/-- `sortStrs` preserves membership. -/
theorem sortStrs_mem (x : String) (l : List String) : x ∈ sortStrs l ↔ x ∈ l :=
  (List.perm_insertionSort _ l).mem_iff

/-- `sortStrs` preserves duplicate-freedom. -/
theorem sortStrs_nodup (l : List String) (h : l.Nodup) : (sortStrs l).Nodup :=
  (List.perm_insertionSort _ l).nodup_iff.mpr h

/-- Membership in `dedupGo`. -/
theorem mem_dedupGo (x : String) : ∀ (seen l : List String),
    x ∈ dedupGo seen l ↔ x ∈ l ∧ x ∉ seen
  | seen, [] => by simp [dedupGo]
  | seen, s :: rest => by
    unfold dedupGo
    split_ifs with h
    · rw [mem_dedupGo x seen rest]
      constructor
      · rintro ⟨hx, hns⟩
        exact ⟨List.mem_cons_of_mem _ hx, hns⟩
      · rintro ⟨hx, hns⟩
        rcases List.mem_cons.mp hx with rfl | hx2
        · exact absurd h hns
        · exact ⟨hx2, hns⟩
    · simp only [List.mem_cons, mem_dedupGo x (s :: seen) rest]
      constructor
      · rintro (rfl | ⟨hx, hns⟩)
        · exact ⟨Or.inl rfl, h⟩
        · exact ⟨Or.inr hx, fun hc => hns (Or.inr hc)⟩
      · rintro ⟨hx | hx, hns⟩
        · exact Or.inl hx
        · by_cases hxs : x = s
          · exact Or.inl hxs
          · refine Or.inr ⟨hx, fun hc => ?_⟩
            rcases hc with h1 | h1
            · exact hxs h1
            · exact hns h1

/-- `dedupGo` yields a duplicate-free list. -/
theorem nodup_dedupGo : ∀ (seen l : List String), (dedupGo seen l).Nodup
  | _, [] => List.nodup_nil
  | seen, s :: rest => by
    unfold dedupGo
    split_ifs with h
    · exact nodup_dedupGo seen rest
    · refine List.nodup_cons.mpr ⟨?_, nodup_dedupGo (s :: seen) rest⟩
      intro hmem
      exact ((mem_dedupGo s (s :: seen) rest).mp hmem).2 (List.mem_cons_self _ _)

/-- One classification step appends exactly the entry's contribution. -/
theorem classifyStep_fst (acc : List String × Bool) (name : String) :
    (classifyStep acc name).1 = acc.1 ++ entryContribution name := by
  unfold classifyStep entryContribution
  split_ifs with h1 h2 h3
  · simp
  · simp
  · simp
  · cases moduleNameOfEntry name <;> simp

/-- One classification step or-accumulates exactly the entry's flag. -/
theorem classifyStep_snd (acc : List String × Bool) (name : String) :
    (classifyStep acc name).2 = (acc.2 || entryFlag name) := by
  unfold classifyStep entryFlag
  split_ifs with h1 h2 h3
  · simp [h1]
  · simp only [Bool.not_eq_true'] at h2
    simp [h2]
  · have h1f : isSkippedDir name = false := by simpa using h1
    have h2t : hasNativeExt name = true := by simpa using h2
    simp [h1f, h2t]
  · have h1f : isSkippedDir name = false := by simpa using h1
    have h2t : hasNativeExt name = true := by simpa using h2
    cases moduleNameOfEntry name <;> simp [h1f, h2t]

/-- An entry with no contribution and no flag leaves the state unchanged. -/
theorem classifyStep_noop (acc : List String × Bool) (name : String)
    (hc : entryContribution name = []) (hf : entryFlag name = false) :
    classifyStep acc name = acc := by
  have h1 := classifyStep_fst acc name
  have h2 := classifyStep_snd acc name
  rw [hc, List.append_nil] at h1
  rw [hf, Bool.or_false] at h2
  exact Prod.ext h1 h2

/-- Modules already collected survive the rest of the loop. -/
theorem foldl_classifyStep_mem (m : String) :
    ∀ (names : List String) (acc : List String × Bool),
      m ∈ acc.1 → m ∈ (names.foldl classifyStep acc).1
  | [], _, h => h
  | n :: ns, acc, h => by
    rw [List.foldl_cons]
    refine foldl_classifyStep_mem m ns _ ?_
    rw [classifyStep_fst]
    exact List.mem_append_left _ h

/-- A module contributed by any entry of the archive ends up collected. -/
theorem foldl_classifyStep_mem_of_entry (m name : String) :
    ∀ (names : List String) (acc : List String × Bool),
      name ∈ names → m ∈ entryContribution name →
      m ∈ (names.foldl classifyStep acc).1
  | [], _, hmem, _ => absurd hmem (List.not_mem_nil _)
  | n :: ns, acc, hmem, hc => by
    rw [List.foldl_cons]
    rcases List.mem_cons.mp hmem with rfl | h2
    · refine foldl_classifyStep_mem m ns _ ?_
      rw [classifyStep_fst]
      exact List.mem_append_right _ hc
    · exact foldl_classifyStep_mem_of_entry m name ns _ h2 hc

/-- `find?` skips an inserted element the predicate rejects. -/
theorem find?_middle_neg {α : Type} (p : α → Bool) (x : α) (hx : p x = false) :
    ∀ l1 l2 : List α, List.find? p (l1 ++ x :: l2) = List.find? p (l1 ++ l2)
  | [], l2 => by
    simp only [List.nil_append]
    rw [List.find?_cons_of_neg _ (by simp [hx])]
  | a :: l1, l2 => by
    simp only [List.cons_append]
    by_cases ha : p a = true
    · rw [List.find?_cons_of_pos _ ha, List.find?_cons_of_pos _ ha]
    · rw [List.find?_cons_of_neg _ (by simpa using ha),
        List.find?_cons_of_neg _ (by simpa using ha)]
      exact find?_middle_neg p x hx l1 l2

/-- The classification loop ignores an inserted no-op entry. -/
theorem foldl_classifyStep_middle (x : String)
    (hc : entryContribution x = []) (hf : entryFlag x = false)
    (l1 l2 : List String) (acc : List String × Bool) :
    (l1 ++ x :: l2).foldl classifyStep acc = (l1 ++ l2).foldl classifyStep acc := by
  rw [List.foldl_append, List.foldl_append, List.foldl_cons,
    classifyStep_noop _ _ hc hf]

/-! ## Claim C4 -/

/-- C4, counterexample: the claim's "for every archive the returned list
is duplicate-free and sorted" fails when the top-level fallback triggers.
The archive below has one native-looking entry (`abi3.so`) that yields no
module name, so the declared top-level names `["b", "a", "b"]` are
returned verbatim: unsorted and with a duplicate. -/
theorem C4_counterexample :
    (extract_native_modules
        [("x.dist-info/top_level.txt", "b\na\nb"), ("abi3.so", "")]).1 =
      ["b", "a", "b"] ∧
    ¬ (List.Sorted strLeR
        (extract_native_modules
          [("x.dist-info/top_level.txt", "b\na\nb"), ("abi3.so", "")]).1 ∧
      (extract_native_modules
          [("x.dist-info/top_level.txt", "b\na\nb"), ("abi3.so", "")]).1.Nodup) := by
  decide

/-- C4, amended: an archive entry `pkg/_native.cpython-311-x86_64-linux-gnu.so`
always yields module name `pkg._native` in the returned list (the ABI tag
segment and everything after it stripped), and whenever the top-level-names
fallback is not taken the returned native-module list is duplicate-free and
sorted lexicographically (the fallback returns the declared top-level names
verbatim). -/
theorem C4_classification_and_ordering (entries : List (String × String)) :
    ("pkg/_native.cpython-311-x86_64-linux-gnu.so" ∈ entries.map Prod.fst →
      "pkg._native" ∈ (extract_native_modules entries).1) ∧
    (usesTopLevelFallback entries = false →
      List.Sorted strLeR (extract_native_modules entries).1 ∧
        (extract_native_modules entries).1.Nodup) := by
  constructor
  · intro hmem
    have hc : "pkg._native" ∈
        entryContribution "pkg/_native.cpython-311-x86_64-linux-gnu.so" := by
      decide
    have hraw : "pkg._native" ∈ (rawClassify (entries.map Prod.fst)).1 :=
      foldl_classifyStep_mem_of_entry _ _ (entries.map Prod.fst) ([], false) hmem hc
    have hne : ((rawClassify (entries.map Prod.fst)).1.isEmpty) = false := by
      rcases hr : (rawClassify (entries.map Prod.fst)).1 with _ | _
      · rw [hr] at hraw
        exact absurd hraw (List.not_mem_nil _)
      · rfl
    have hfb : usesTopLevelFallback entries = false := by
      unfold usesTopLevelFallback
      rw [hne]
      rfl
    unfold extract_native_modules
    rw [hfb]
    simp only [Bool.false_eq_true, if_false]
    show "pkg._native" ∈ sortStrs (dedupStrs (rawClassify (entries.map Prod.fst)).1)
    rw [sortStrs_mem]
    unfold dedupStrs
    rw [mem_dedupGo]
    exact ⟨hraw, List.not_mem_nil _⟩
  · intro hfb
    unfold extract_native_modules
    rw [hfb]
    simp only [Bool.false_eq_true, if_false]
    exact ⟨sortStrs_sorted _, sortStrs_nodup _ (nodup_dedupGo [] _)⟩

/-- C4, witness at a one-entry archive. -/
theorem C4_classification_and_ordering_witness :
    "pkg._native" ∈ (extract_native_modules
        [("pkg/_native.cpython-311-x86_64-linux-gnu.so", "")]).1 ∧
    (List.Sorted strLeR (extract_native_modules
        [("pkg/_native.cpython-311-x86_64-linux-gnu.so", "")]).1 ∧
      (extract_native_modules
        [("pkg/_native.cpython-311-x86_64-linux-gnu.so", "")]).1.Nodup) :=
  ⟨(C4_classification_and_ordering _).1 (by decide),
   (C4_classification_and_ordering _).2 (by decide)⟩

/-! ## Claim C5 -/

/-- C5: inserting the bundled-library entry `libfoo.so.1.2.3` anywhere into
an archive leaves the classification result unchanged (so it is excluded
from the returned native-module set), and more generally any entry whose
base filename starts with `lib` and carries a second `.so.` suffix
contributes no module name to the classification loop. -/
theorem C5_bundled_libs_excluded (pre post : List (String × String))
    (content : String) (name : String) :
    extract_native_modules (pre ++ ("libfoo.so.1.2.3", content) :: post) =
      extract_native_modules (pre ++ post) ∧
    (pyStartsWith (entryBaseName name) "lib" = true →
      strContains (entryBaseName name) ".so." = true →
      entryContribution name = []) := by
  constructor
  · have htop : topLevelOf (pre ++ ("libfoo.so.1.2.3", content) :: post) =
        topLevelOf (pre ++ post) := by
      unfold topLevelOf
      rw [find?_middle_neg _ ("libfoo.so.1.2.3", content)
        (by decide : pyEndsWith "libfoo.so.1.2.3" ".dist-info/top_level.txt" = false)
        pre post]
    have hraw : rawClassify ((pre ++ ("libfoo.so.1.2.3", content) :: post).map Prod.fst) =
        rawClassify ((pre ++ post).map Prod.fst) := by
      unfold rawClassify
      rw [List.map_append, List.map_cons, List.map_append]
      exact foldl_classifyStep_middle "libfoo.so.1.2.3" (by decide) (by decide)
        (pre.map Prod.fst) (post.map Prod.fst) ([], false)
    unfold extract_native_modules usesTopLevelFallback
    rw [htop, hraw]
  · intro h1 h2
    unfold entryContribution
    split_ifs with hs hn hb
    · rfl
    · rfl
    · rfl
    · exfalso
      apply hb
      unfold isBundledLib
      rw [h1, h2]
      rfl

/-- C5, witness: `libfoo.so.1.2.3` next to a real extension module, and a
versioned bundled library name. -/
theorem C5_bundled_libs_excluded_witness :
    extract_native_modules [("pkg/x.so", ""), ("libfoo.so.1.2.3", "")] =
      extract_native_modules [("pkg/x.so", "")] ∧
    entryContribution "pkg/libbar.so.2.so" = [] :=
  ⟨(C5_bundled_libs_excluded [("pkg/x.so", "")] [] "" "pkg/libbar.so.2.so").1,
   (C5_bundled_libs_excluded [("pkg/x.so", "")] [] "" "pkg/libbar.so.2.so").2
     (by decide) (by decide)⟩

/-! ## Claim C6 -/

/-- C6: a probe that exits non-zero with error output indicating a missing
module-export entry point or a module-not-found condition is silently
skipped — the loop state is entirely unchanged (no tested increment, no
failed or whitelisted record) — and every probe that produces an actual
pass/fail verdict increments the tested counter by one. -/
theorem C6_silent_skip_and_tested_counter (wheel_name : String)
    (whitelist : Whitelist) (probeRun : String → ProcOutcome)
    (st : ProbeState) (m : String) :
    (probeSilentlySkipped probeRun m = true →
      probeStep wheel_name whitelist probeRun st m = st) ∧
    (probeSilentlySkipped probeRun m = false →
      (probeStep wheel_name whitelist probeRun st m).tested = st.tested + 1) := by
  unfold probeSilentlySkipped probeStep
  rcases hp : probeRun m with _ | ⟨rc, out, err⟩
  · refine ⟨fun h => Bool.noConfusion h, fun _ => ?_⟩
    show (recordOutcome wheel_name whitelist m "Import timeout (module may be hanging)"
      { st with tested := st.tested + 1 }).tested = st.tested + 1
    unfold recordOutcome
    split_ifs <;> rfl
  · constructor
    · intro h
      simp only [] at h
      rw [Bool.and_eq_true] at h
      obtain ⟨hrc, hskip⟩ := h
      have hrcb : (rc == 0) = false := by
        have hne : rc ≠ 0 := by simpa using hrc
        simpa using hne
      simp [hrcb, hskip]
    · intro h
      by_cases hrc : rc = 0
      · simp [hrc]
      · have hrcb : (rc == 0) = false := by simpa using hrc
        have hbne : (rc != 0) = true := by simpa using hrc
        simp only [] at h
        rw [hbne, Bool.true_and] at h
        simp only [hrcb, Bool.false_eq_true, if_false, h]
        simp only [recordOutcome]
        split_ifs <;> rfl

/-- C6, witness: one probe hitting the ModuleNotFoundError suppression and
one probe with a genuine failure verdict. -/
theorem C6_silent_skip_and_tested_counter_witness :
    probeStep "w.whl" []
        (fun m => if m == "ghost" then ProcOutcome.done 1 "" "ModuleNotFoundError: ghost"
                  else ProcOutcome.done 1 "" "ImportError: boom")
        ⟨[], [], 0, []⟩ "ghost" = ⟨[], [], 0, []⟩ ∧
    (probeStep "w.whl" []
        (fun m => if m == "ghost" then ProcOutcome.done 1 "" "ModuleNotFoundError: ghost"
                  else ProcOutcome.done 1 "" "ImportError: boom")
        ⟨[], [], 0, []⟩ "real").tested = 0 + 1 :=
  ⟨(C6_silent_skip_and_tested_counter "w.whl" [] _ ⟨[], [], 0, []⟩ "ghost").1 (by decide),
   (C6_silent_skip_and_tested_counter "w.whl" [] _ ⟨[], [], 0, []⟩ "real").2 (by decide)⟩

/-! ## Claim C7 -/

/-- A module table containing a non-string value fails validation. -/
theorem validateModules_none_of_bad (m : String) (pv : Json) :
    ∀ mods : List (String × Json), (m, pv) ∈ mods → (∀ s, pv ≠ Json.jstr s) →
      validateModules mods = none
  | [], hmem, _ => absurd hmem (List.not_mem_nil _)
  | (m0, v0) :: rest, hmem, hbad => by
    cases v0 with
    | jstr s =>
      rcases List.mem_cons.mp hmem with heq | hmem2
      · cases heq
        exact absurd rfl (hbad s)
      · unfold validateModules
        rw [validateModules_none_of_bad m pv rest hmem2 hbad]
        rfl
    | jobj fs => rfl
    | jother => rfl

/-- A top level containing a non-object value fails validation. -/
theorem validateWhitelist_none_of_nonobj (w : String) (v : Json) :
    ∀ fields : List (String × Json), (w, v) ∈ fields → (∀ ms, v ≠ Json.jobj ms) →
      validateWhitelist fields = none
  | [], hmem, _ => absurd hmem (List.not_mem_nil _)
  | (w0, v0) :: rest, hmem, hbad => by
    cases v0 with
    | jobj ms =>
      rcases List.mem_cons.mp hmem with heq | hmem2
      · cases heq
        exact absurd rfl (hbad ms)
      · cases hm : validateModules ms
        · unfold validateWhitelist
          rw [hm]
        · unfold validateWhitelist
          rw [hm, validateWhitelist_none_of_nonobj w v rest hmem2 hbad]
          rfl
    | jstr s => rfl
    | jother => rfl

/-- A top level containing an object whose table fails validation makes
the whole validation fail. -/
theorem validateWhitelist_none_of_badmods (w : String) (mods : List (String × Json)) :
    ∀ fields : List (String × Json), (w, Json.jobj mods) ∈ fields →
      validateModules mods = none → validateWhitelist fields = none
  | [], hmem, _ => absurd hmem (List.not_mem_nil _)
  | (w0, v0) :: rest, hmem, hbad => by
    cases v0 with
    | jobj ms =>
      rcases List.mem_cons.mp hmem with heq | hmem2
      · cases heq
        unfold validateWhitelist
        rw [hbad]
      · cases hm : validateModules ms
        · unfold validateWhitelist
          rw [hm]
        · unfold validateWhitelist
          rw [hm, validateWhitelist_none_of_badmods w mods rest hmem2 hbad]
          rfl
    | jstr s => rfl
    | jother => rfl

/-- C7: whitelist loading returns the empty mapping when no path argument
is given; returns the empty mapping (after a warning) when the path's
file is absent; and aborts the whole run (`Except.error ()`, the model of
`sys.exit(1)`) when the file is present but is malformed JSON, has a
non-object top level, has a top-level value that is not an object, or has
any pattern value that is not a string. -/
theorem C7_load_whitelist_contract (j : Json) (fields : List (String × Json)) :
    load_whitelist none = Except.ok [] ∧
    load_whitelist (some WhitelistFile.absent) = Except.ok [] ∧
    load_whitelist (some WhitelistFile.malformed) = Except.error () ∧
    ((∀ fs, j ≠ Json.jobj fs) →
      load_whitelist (some (WhitelistFile.parsed j)) = Except.error ()) ∧
    (∀ w v, (w, v) ∈ fields → (∀ ms, v ≠ Json.jobj ms) →
      load_whitelist (some (WhitelistFile.parsed (Json.jobj fields))) =
        Except.error ()) ∧
    (∀ w mods m pv, (w, Json.jobj mods) ∈ fields → (m, pv) ∈ mods →
      (∀ s, pv ≠ Json.jstr s) →
      load_whitelist (some (WhitelistFile.parsed (Json.jobj fields))) =
        Except.error ()) := by
  refine ⟨rfl, rfl, rfl, ?_, ?_, ?_⟩
  · intro hbad
    cases j with
    | jobj fs => exact absurd rfl (hbad fs)
    | jstr s => rfl
    | jother => rfl
  · intro w v hmem hbad
    unfold load_whitelist
    simp only []
    rw [validateWhitelist_none_of_nonobj w v fields hmem hbad]
  · intro w mods m pv hmem hmem2 hbad
    unfold load_whitelist
    simp only []
    rw [validateWhitelist_none_of_badmods w mods fields hmem
      (validateModules_none_of_bad m pv mods hmem2 hbad)]

/-- C7, witness: a top-level value that is a bare string, and a pattern
value that is not a string, are both fatal. -/
theorem C7_load_whitelist_contract_witness :
    load_whitelist (some (WhitelistFile.parsed
        (Json.jobj [("a.whl", Json.jstr "oops")]))) = Except.error () ∧
    load_whitelist (some (WhitelistFile.parsed
        (Json.jobj [("b.whl", Json.jobj [("m", Json.jother)])]))) = Except.error () :=
  ⟨(C7_load_whitelist_contract Json.jother [("a.whl", Json.jstr "oops")]).2.2.2.2.1
      "a.whl" (Json.jstr "oops") (List.mem_singleton.mpr rfl)
      (fun _ h => Json.noConfusion h),
   (C7_load_whitelist_contract Json.jother
        [("b.whl", Json.jobj [("m", Json.jother)])]).2.2.2.2.2
      "b.whl" [("m", Json.jother)] "m" Json.jother (List.mem_singleton.mpr rfl)
      (List.mem_singleton.mpr rfl) (fun _ h => Json.noConfusion h)⟩

/-! ## Claim C8 -/

/-- Membership in the flattened unused-entries table: exactly the pairs
declared in the whitelist and absent from the used set. -/
theorem mem_unusedPairs (w m : String) (used : List (String × String)) :
    ∀ wl : Whitelist,
      (w, m) ∈ unusedPairs (find_unused_whitelist_entries wl used) ↔
        ((∃ mods, (w, mods) ∈ wl ∧ m ∈ mods.map Prod.fst) ∧ (w, m) ∉ used)
  | [] => by simp [find_unused_whitelist_entries, unusedPairs]
  | (w0, mods0) :: rest => by
    have hum : ∀ x, x ∈ (mods0.map Prod.fst).filter (fun mm => decide ((w0, mm) ∉ used)) ↔
        (x ∈ mods0.map Prod.fst ∧ (w0, x) ∉ used) := by
      intro x
      rw [List.mem_filter]
      simp
    unfold find_unused_whitelist_entries
    split_ifs with he
    · rw [mem_unusedPairs w m used rest]
      have hemp : ∀ x, ¬(x ∈ mods0.map Prod.fst ∧ (w0, x) ∉ used) := by
        intro x hx
        have hxm := (hum x).mpr hx
        rw [List.isEmpty_iff] at he
        rw [he] at hxm
        exact List.not_mem_nil _ hxm
      constructor
      · rintro ⟨⟨mods, hmods, hm⟩, hnu⟩
        exact ⟨⟨mods, List.mem_cons_of_mem _ hmods, hm⟩, hnu⟩
      · rintro ⟨⟨mods, hmods, hm⟩, hnu⟩
        rcases List.mem_cons.mp hmods with heq | hmods2
        · injection heq with hw hmods'
          subst hw
          subst hmods'
          exact absurd ⟨hm, hnu⟩ (hemp m)
        · exact ⟨⟨mods, hmods2, hm⟩, hnu⟩
    · show (w, m) ∈
        ((mods0.map Prod.fst).filter (fun mm => decide ((w0, mm) ∉ used))).map
          (fun mm => (w0, mm)) ++
        unusedPairs (find_unused_whitelist_entries rest used) ↔ _
      rw [List.mem_append, List.mem_map, mem_unusedPairs w m used rest]
      constructor
      · rintro (⟨x, hx, hpair⟩ | ⟨⟨mods, hmods, hm⟩, hnu⟩)
        · injection hpair with hw hm'
          subst hw
          subst hm'
          obtain ⟨hxm, hxu⟩ := (hum _).mp hx
          exact ⟨⟨mods0, List.mem_cons_self _ _, hxm⟩, hxu⟩
        · exact ⟨⟨mods, List.mem_cons_of_mem _ hmods, hm⟩, hnu⟩
      · rintro ⟨⟨mods, hmods, hm⟩, hnu⟩
        rcases List.mem_cons.mp hmods with heq | hmods2
        · injection heq with hw hmods'
          subst hw
          subst hmods'
          exact Or.inl ⟨m, (hum m).mpr ⟨hm, hnu⟩, rfl⟩
        · exact Or.inr ⟨⟨mods, hmods2, hm⟩, hnu⟩

/-- Under dict-key uniqueness the flattened unused table is duplicate-free,
and every reported pair's wheel key is a declared wheel key. -/
theorem nodup_unusedPairs (used : List (String × String)) :
    ∀ wl : Whitelist,
      (wl.map Prod.fst).Nodup →
      (∀ p ∈ wl, (p.2.map Prod.fst).Nodup) →
      (unusedPairs (find_unused_whitelist_entries wl used)).Nodup ∧
      (∀ p ∈ unusedPairs (find_unused_whitelist_entries wl used),
        p.1 ∈ wl.map Prod.fst)
  | [], _, _ => by simp [find_unused_whitelist_entries, unusedPairs]
  | (w0, mods0) :: rest, hkeys, hmods => by
    rw [List.map_cons, List.nodup_cons] at hkeys
    obtain ⟨hw0, hkeys'⟩ := hkeys
    obtain ⟨ihnd, ihsup⟩ := nodup_unusedPairs used rest hkeys'
      (fun p hp => hmods p (List.mem_cons_of_mem _ hp))
    unfold find_unused_whitelist_entries
    split_ifs with he
    · refine ⟨ihnd, fun p hp => ?_⟩
      rw [List.map_cons]
      exact List.mem_cons_of_mem _ (ihsup p hp)
    · have hmap : ∀ q ∈ ((mods0.map Prod.fst).filter
          (fun mm => decide ((w0, mm) ∉ used))).map (fun mm => (w0, mm)),
          q.1 = w0 := by
        intro q hq
        obtain ⟨x, -, rfl⟩ := List.mem_map.mp hq
        rfl
      constructor
      · show (((mods0.map Prod.fst).filter (fun mm => decide ((w0, mm) ∉ used))).map
            (fun mm => (w0, mm)) ++
          unusedPairs (find_unused_whitelist_entries rest used)).Nodup
        refine List.Nodup.append ?_ ihnd ?_
        · refine List.Nodup.map ?_ (List.Nodup.filter _ (hmods _ (List.mem_cons_self _ _)))
          intro a b hab
          injection hab
        · intro q hq1 hq2
          have h1 := hmap q hq1
          have h2 := ihsup q hq2
          rw [h1] at h2
          exact hw0 h2
      · intro p hp
        rcases List.mem_append.mp hp with hp1 | hp2
        · rw [List.map_cons, hmap p hp1]
          exact List.mem_cons_self _ _
        · rw [List.map_cons]
          exact List.mem_cons_of_mem _ (ihsup p hp2)

/-- C8: after a run, the set of reported unused whitelist entries is
exactly the set of (packageName, moduleName) pairs declared in the
whitelist and absent from the accumulated used-keys set, and (under
dict-key uniqueness) every such pair is reported exactly once. -/
theorem C8_unused_whitelist_entries (inp : MainInput) (whitelist : Whitelist)
    (c : Nat) (f wlw : List (String × List (String × String)))
    (unused : List (String × List String)) (wheel_name module : String)
    (hload : load_whitelist inp.whitelistFile = Except.ok whitelist)
    (hrun : mainRun inp = MainOutcome.report c f wlw unused)
    (hkeys : (whitelist.map Prod.fst).Nodup)
    (hmods : ∀ p ∈ whitelist, (p.2.map Prod.fst).Nodup) :
    ((wheel_name, module) ∈ unusedPairs unused ↔
      ((∃ mods, (wheel_name, mods) ∈ whitelist ∧ module ∈ mods.map Prod.fst) ∧
        (wheel_name, module) ∉ accumUsed (runResults inp.wheels whitelist))) ∧
    (unusedPairs unused).Nodup := by
  have hun : unused = find_unused_whitelist_entries whitelist
      (accumUsed (runResults inp.wheels whitelist)) := by
    unfold mainRun at hrun
    rw [hload] at hrun
    simp only [] at hrun
    split_ifs at hrun
    all_goals first
      | exact MainOutcome.noConfusion hrun
      | (injection hrun with h1 h2 h3 h4; exact h4.symm)
  rw [hun]
  exact ⟨mem_unusedPairs wheel_name module _ whitelist,
    (nodup_unusedPairs _ whitelist hkeys hmods).1⟩

/-- C8, witness: a one-entry whitelist never used by the single (failing
at venv creation) wheel is reported unused. -/
theorem C8_unused_whitelist_entries_witness :
    (("a.whl", "m") ∈ unusedPairs [("a.whl", ["m"])] ↔
      ((∃ mods, ("a.whl", mods) ∈ [("a.whl", [("m", PyVal.str "x")])] ∧
          "m" ∈ mods.map Prod.fst) ∧
        ("a.whl", "m") ∉ accumUsed (runResults
          [{ wheelName := "w.whl", venvRun := ProcOutcome.timedOut,
             venvPythonPath := "", venvPythonExists := true,
             installRun := ProcOutcome.timedOut, entries := [],
             probeRun := fun _ => ProcOutcome.timedOut,
             raisesException := none }]
          [("a.whl", [("m", PyVal.str "x")])]))) ∧
    (unusedPairs [("a.whl", ["m"])]).Nodup :=
  C8_unused_whitelist_entries
    { whitelistFile := some (WhitelistFile.parsed
        (Json.jobj [("a.whl", Json.jobj [("m", Json.jstr "x")])])),
      packagesDirFound := true,
      wheels := [{ wheelName := "w.whl", venvRun := ProcOutcome.timedOut,
                   venvPythonPath := "", venvPythonExists := true,
                   installRun := ProcOutcome.timedOut, entries := [],
                   probeRun := fun _ => ProcOutcome.timedOut,
                   raisesException := none }] }
    [("a.whl", [("m", PyVal.str "x")])] 1
    [("w.whl", [("venv", "Timeout creating virtual environment")])] []
    [("a.whl", ["m"])] "a.whl" "m" rfl rfl (by decide) (by decide)

/-! ## Claim C9 -/

/-- C9: when a package's verification task raises, the task-boundary
wrapper returns (instead of propagating) a failure outcome whose single
error pair is tagged `"exception"` with the exception text; and the run
produces one result per package regardless. -/
theorem C9_exception_contained (inp : WheelInput) (whitelist : Whitelist)
    (e : String) (h : inp.raisesException = some e) :
    test_wheel_wrapper inp whitelist =
      ⟨false, [("exception", e)], [], 0, []⟩ ∧
    ∀ wheels : List WheelInput,
      (runResults wheels whitelist).length = wheels.length := by
  constructor
  · unfold test_wheel_wrapper
    rw [h]
  · intro wheels
    unfold runResults
    simp

/-- C9, witness at a concrete raising task. -/
theorem C9_exception_contained_witness :
    test_wheel_wrapper
        { wheelName := "w.whl", venvRun := ProcOutcome.done 0 "" "",
          venvPythonPath := "", venvPythonExists := true,
          installRun := ProcOutcome.done 0 "" "",
          entries := [], probeRun := fun _ => ProcOutcome.timedOut,
          raisesException := some "division by zero" } [] =
      ⟨false, [("exception", "division by zero")], [], 0, []⟩ :=
  (C9_exception_contained _ [] "division by zero" rfl).1

/-! ## Claim C10 -/

/-- C10: a whitelist entry whose stored pattern is the empty string never
whitelists any failure — `is_whitelisted` returns false even though the
empty pattern (lowercased) is a substring of every (lowercased) error
text. -/
theorem C10_empty_pattern_never_whitelists (wheel_name module error : String)
    (whitelist : Whitelist)
    (h : wlLookup whitelist wheel_name module = some (PyVal.str "")) :
    is_whitelisted wheel_name module error whitelist = false ∧
      strContains (pyLower error) (pyLower "") = true := by
  constructor
  · unfold is_whitelisted
    split_ifs with h0
    · rfl
    · simp [h]
  · exact containsSubCL_nil _

/-- C10, witness at a concrete input. -/
theorem C10_empty_pattern_never_whitelists_witness :
    is_whitelisted "b.whl" "pkg.m" "ImportError: boom"
        [("b.whl", [("pkg.m", PyVal.str "")])] = false ∧
      strContains (pyLower "ImportError: boom") (pyLower "") = true :=
  C10_empty_pattern_never_whitelists "b.whl" "pkg.m" "ImportError: boom"
    [("b.whl", [("pkg.m", PyVal.str "")])] (by decide)

end NativeImports
